import Mathlib

/-!
Shallow embedding of `src/internal/site/api/proxy.rs`: a self-healing reverse
proxy that lazily spawns a backend executable, health-checks it, and forwards
HTTP requests to it.

The sequential behaviour of `ensure_ready`, `kill_child` and `handler` is
embedded as pure functions over an explicit environment (filesystem, spawn
outcome, health-poll outcomes, backend response) and an explicit supervisor
state (readiness flag, child-handle slot).  Side effects that the claims speak
about (lock acquisitions, spawns, polls, kills) are recorded in a trace.
The concurrent double-checked-locking protocol of `ensure_ready` is embedded
separately as a small-step transition system over N threads.
-/

namespace Proxy

/-- Source constant `TIMEOUT: Duration = Duration::from_secs(10)`, in milliseconds. -/
def TIMEOUT_MS : Nat := 10000

/-- Source constant `POLL: Duration = Duration::from_millis(25)`. -/
def POLL_MS : Nat := 25

/-- Source constant `PORT: u16 = 8080`. -/
def PORT : Nat := 8080

/-- The `Config` record: `Core.DistDir` and `Watch.HealthcheckEndpoint`, as read from
`wave.config.json`. -/
structure Config where
  dist_dir : String
  healthcheck_endpoint : String
  deriving Repr, DecidableEq

/-- The environment a single `ensure_ready` call runs against: the parsed
config, whether `std::fs::metadata(&go_path)` succeeds, whether
`Command::spawn` succeeds (`none`) or fails with an OS error message
(`some e`), the outcome of the i-th health poll (`none` = network error,
`some code` = a response with that HTTP status), and how many poll
iterations fit before the 10-second deadline elapses. -/
structure Env where
  cfg : Config
  binaryExists : Bool
  spawnErr : Option String
  polls : Nat → Option Nat
  maxPolls : Nat

/-- The supervisor's shared mutable state: the atomic `READY` flag and the
`GO: Mutex<Option<Child>>` handle slot. -/
structure SupState where
  ready : Bool
  child : Option Unit
  deriving Repr, DecidableEq

/-- Side effects observed during a call: `INIT_LOCK` acquisitions, processes
spawned, health polls issued, and kills performed on a present child handle. -/
structure Trace where
  locks : Nat
  spawns : Nat
  polls : Nat
  kills : Nat
  deriving Repr, DecidableEq

def Trace.zero : Trace := ⟨0, 0, 0, 0⟩

/-- The path `go_path = format!("./{}/main", cfg.core.dist_dir)`. -/
def goPath (cfg : Config) : String := "./" ++ cfg.dist_dir ++ "/main"

/-- Source function `kill_child`: take whatever is in the `GO` slot and, if a child is
present, kill and wait it.  The slot is empty afterwards; the readiness flag
is not touched. -/
def killChild (s : SupState) : SupState := { s with child := none }

/-- Number of kills `kill_child` performs on state `s` (one when a child is
present, zero otherwise — `if let Some(mut child) = guard.take()`). -/
def killCount (s : SupState) : Nat := if s.child.isSome then 1 else 0

/-- Hyper's `StatusCode::is_success()`: 2xx, i.e. 200 ≤ code ≤ 299. -/
def statusIsSuccess (code : Nat) : Bool := 200 ≤ code && code < 300

/-- One poll's verdict:
`.map(|res| res.status().is_success()).unwrap_or(false)` — a network error
(`none`) and a non-2xx response are both "not yet healthy". -/
def pollIsHealthy (outcome : Option Nat) : Bool :=
  match outcome with
  | some code => statusIsSuccess code
  | none => false

/-- The health-poll loop of `ensure_ready`, discretised: starting at poll
index `i` with `fuel` iterations left before the deadline, return
`some j` when poll `j` is the first healthy one, `none` when the deadline
elapses first.  Each unhealthy iteration sleeps `POLL` (25 ms) and retries. -/
def healthLoop (env : Env) : Nat → Nat → Option Nat
  | _, 0 => none
  | i, fuel + 1 =>
      if pollIsHealthy (env.polls i) then some i else healthLoop env (i + 1) fuel

/-- Source function `ensure_ready()`: fast-path read of `READY`, then the `INIT_LOCK`-guarded
slow path — double-check, defensive `kill_child`, binary-existence check,
spawn, health-poll loop; on deadline kill the spawned child and fail.
Returns the `Result`, the final shared state, and the trace of effects. -/
def ensureReady (env : Env) (s : SupState) :
    Except String Unit × SupState × Trace :=
  if s.ready then (Except.ok (), s, Trace.zero)
  else
    -- let _lock = INIT_LOCK.lock().await;
    let t0 : Trace := { Trace.zero with locks := 1 }
    -- Double-check after acquiring lock
    if s.ready then (Except.ok (), s, t0)
    else
      let t1 : Trace := { t0 with kills := killCount s }
      let s1 := killChild s
      if !env.binaryExists then
        (Except.error ("go binary not found at " ++ goPath env.cfg), s1, t1)
      else
        match env.spawnErr with
        | some e => (Except.error ("spawn failed: " ++ e), s1, t1)
        | none =>
          let s2 : SupState := { s1 with child := some () }
          let t2 : Trace := { t1 with spawns := 1 }
          match healthLoop env 0 env.maxPolls with
          | some j =>
              (Except.ok (), { s2 with ready := true }, { t2 with polls := j + 1 })
          | none =>
              (Except.error "health check timed out", killChild s2,
                { t2 with polls := env.maxPolls, kills := t2.kills + killCount s2 })

/-- Model of `name.to_lowercase()`: lowercase the name character by character (header
names are ASCII, where Rust's `to_lowercase` and per-character lowering
agree; written over the character list so it evaluates by `rfl`/`decide`). -/
def lowerName (s : String) : String := String.mk (s.data.map Char.toLower)

/-- Source function `is_hop_by_hop_header`: lowercase the name and match it against the fixed
denylist. -/
def is_hop_by_hop_header (name : String) : Bool :=
  match lowerName name with
  | "connection" => true
  | "keep-alive" => true
  | "proxy-authenticate" => true
  | "proxy-authorization" => true
  | "te" => true
  | "trailers" => true
  | "transfer-encoding" => true
  | "upgrade" => true
  | "host" => true
  | _ => false

/-- The fixed denylist of hop-by-hop header names, all lowercase. -/
def hopByHopNames : List String :=
  ["connection", "keep-alive", "proxy-authenticate", "proxy-authorization",
   "te", "trailers", "transfer-encoding", "upgrade", "host"]

/-- An inbound request as the handler sees it: method, optional
path-and-query, headers (name/value pairs, one entry per value), and the
streamed body. -/
structure Req where
  method : String
  pathAndQuery : Option String
  headers : List (String × String)
  body : List String

/-- The outbound request the handler builds for the backend. -/
structure OutboundReq where
  method : String
  uri : String
  headers : List (String × String)
  body : List String
  deriving Repr, DecidableEq

/-- A backend response: status, headers, and the body as a stream of data
frames. -/
structure BackendResp where
  status : Nat
  headers : List (String × String)
  frames : List String

/-- A response body: either a plain string (`ResponseBody::from(e)`) or a
stream of frames relayed from the backend. -/
inductive RespBody where
  | text (s : String)
  | stream (frames : List String)
  deriving Repr, DecidableEq

/-- How one `handler` invocation ends: a normal response handed back to the
runtime, or a `panic!` aborting the invocation. -/
inductive HandlerOutcome where
  | response (status : Nat) (headers : List (String × String)) (body : RespBody)
  | panicked (msg : String)
  deriving Repr, DecidableEq

/-- Result of one `handler` invocation: the outcome, the outbound request
that was sent to the backend (when one was), the final shared state and the
trace of effects. -/
structure HandlerResult where
  outcome : HandlerOutcome
  outbound : Option OutboundReq
  finalState : SupState
  trace : Trace

/-- The proxied-traffic URI: `format!("http://127.0.0.1:{PORT}{path}")` with
`path = req.uri().path_and_query() ... unwrap_or("/")`. -/
def targetUri (pathAndQuery : Option String) : String :=
  "http://127.0.0.1:" ++ toString PORT ++ pathAndQuery.getD "/"

/-- Source function `handler`: run `ensure_ready`; on its failure answer 503 with the error
string as body.  Otherwise build the outbound request — same method and body,
rewritten URI, headers minus the hop-by-hop denylist — and send it.  On a
backend response, relay status and denylist-filtered headers with the body as
a frame stream; on an outbound failure, store `false` into `READY` and
`panic!`.  The backend's behaviour is supplied as `backend`. -/
def handler (env : Env) (s : SupState) (req : Req)
    (backend : Except String BackendResp) : HandlerResult :=
  match ensureReady env s with
  | (Except.error e, s1, t1) =>
      { outcome := HandlerOutcome.response 503 [] (RespBody.text e),
        outbound := none, finalState := s1, trace := t1 }
  | (Except.ok (), s1, t1) =>
      let ob : OutboundReq :=
        { method := req.method,
          uri := targetUri req.pathAndQuery,
          headers := req.headers.filter (fun h => !is_hop_by_hop_header h.1),
          body := req.body }
      match backend with
      | Except.ok res =>
          { outcome := HandlerOutcome.response res.status
              (res.headers.filter (fun h => !is_hop_by_hop_header h.1))
              (RespBody.stream res.frames),
            outbound := some ob, finalState := s1, trace := t1 }
      | Except.error e =>
          { outcome := HandlerOutcome.panicked ("backend connection failed: " ++ e),
            outbound := some ob,
            finalState := { s1 with ready := false }, trace := t1 }

/-- Source function `shutdown`: kill the tracked child (the readiness flag is not touched;
the process exits right after). -/
def shutdown (s : SupState) : SupState := killChild s

end Proxy

namespace ProxyConc

/-!
The concurrent double-checked-locking protocol of `ensure_ready`, for the
scenario in which the health check succeeds, as a small-step transition
system over `n` threads.  Each thread runs the control flow of
`ensure_ready`; the shared state is the `READY` atomic, the `INIT_LOCK`
holder, and a spawn counter.
-/

/-- Program counter of one caller inside `ensure_ready`. -/
inductive PC where
  /-- about to do the fast-path read of `READY` -/
  | start
  /-- blocked on `INIT_LOCK.lock()` -/
  | waiting
  /-- holds the lock, about to double-check `READY` -/
  | recheck
  /-- holds the lock, double-check saw `false`; about to `kill_child`,
  verify the binary and spawn -/
  | spawning
  /-- holds the lock, has spawned; health poll about to succeed -/
  | polling
  /-- holds the lock, `READY` stored `true`; about to release and return -/
  | releasing
  /-- returned from `ensure_ready` -/
  | done
  deriving Repr, DecidableEq

/-- A thread is inside the `INIT_LOCK` critical section. -/
def PC.inCrit : PC → Prop
  | PC.recheck => True
  | PC.spawning => True
  | PC.polling => True
  | PC.releasing => True
  | _ => False

instance : DecidablePred PC.inCrit := by
  intro pc
  cases pc <;> simp [PC.inCrit] <;> infer_instance

/-- Shared state of the `n`-thread system. -/
structure CState (n : Nat) where
  ready : Bool
  lock : Option (Fin n)
  spawns : Nat
  pcs : Fin n → PC

/-- All threads about to call `ensure_ready` while readiness is false. -/
def init (n : Nat) : CState n :=
  { ready := false, lock := none, spawns := 0, pcs := fun _ => PC.start }

/-- One interleaving step: some thread `i` executes its next atomic action of
`ensure_ready` (health checks succeed in this scenario). -/
inductive Step {n : Nat} : CState n → CState n → Prop where
  /-- fast path: `READY.load` is `true`, return `Ok` with no locking -/
  | fastTrue (s : CState n) (i : Fin n) :
      s.pcs i = PC.start → s.ready = true →
      Step s { s with pcs := Function.update s.pcs i PC.done }
  /-- fast path read is `false`: go wait on `INIT_LOCK` -/
  | fastFalse (s : CState n) (i : Fin n) :
      s.pcs i = PC.start → s.ready = false →
      Step s { s with pcs := Function.update s.pcs i PC.waiting }
  /-- acquire the free lock -/
  | acquire (s : CState n) (i : Fin n) :
      s.pcs i = PC.waiting → s.lock = none →
      Step s { s with lock := some i, pcs := Function.update s.pcs i PC.recheck }
  /-- double-check sees `true`: release and return `Ok` -/
  | recheckTrue (s : CState n) (i : Fin n) :
      s.pcs i = PC.recheck → s.ready = true →
      Step s { s with lock := none, pcs := Function.update s.pcs i PC.done }
  /-- double-check sees `false`: proceed to the startup sequence -/
  | recheckFalse (s : CState n) (i : Fin n) :
      s.pcs i = PC.recheck → s.ready = false →
      Step s { s with pcs := Function.update s.pcs i PC.spawning }
  /-- the `kill_child` call, binary check and `Command::spawn` (under the lock) -/
  | spawn (s : CState n) (i : Fin n) :
      s.pcs i = PC.spawning →
      Step s { s with spawns := s.spawns + 1,
                      pcs := Function.update s.pcs i PC.polling }
  /-- a health poll returns success: `READY.store(true)` -/
  | healthOk (s : CState n) (i : Fin n) :
      s.pcs i = PC.polling →
      Step s { s with ready := true, pcs := Function.update s.pcs i PC.releasing }
  /-- drop the lock guard and return `Ok` -/
  | release (s : CState n) (i : Fin n) :
      s.pcs i = PC.releasing →
      Step s { s with lock := none, pcs := Function.update s.pcs i PC.done }

/-- States reachable from `init n` by any interleaving. -/
def Reachable (n : Nat) (s : CState n) : Prop :=
  Relation.ReflTransGen Step (init n) s

/-- Inductive invariant of the double-checked-locking protocol. -/
structure Inv {n : Nat} (s : CState n) : Prop where
  crit_lock : ∀ i, (s.pcs i).inCrit → s.lock = some i
  spawning_not_ready : ∀ i, s.pcs i = PC.spawning → s.ready = false
  spawns_le : s.spawns ≤ 1
  spawn_tracked : s.spawns = 1 → s.ready = true ∨ ∃ i, s.pcs i = PC.polling
  polling_spawned : ∀ i, s.pcs i = PC.polling → 1 ≤ s.spawns
  releasing_ready : ∀ i, s.pcs i = PC.releasing → s.ready = true
  done_ready : ∀ i, s.pcs i = PC.done → s.ready = true
  ready_spawned : s.ready = true → 1 ≤ s.spawns

end ProxyConc

namespace Proxy

/-- A parsed configuration, used as a concrete test fixture. -/
def goodCfg : Config := { dist_dir := "backend", healthcheck_endpoint := "/health" }

/-- Concrete environment: binary present, spawn succeeds, first poll healthy. -/
def goodEnv : Env :=
  { cfg := goodCfg, binaryExists := true, spawnErr := none,
    polls := fun _ => some 200, maxPolls := 1 }

/-- Concrete environment: every poll is a network error, deadline admits 3. -/
def timeoutEnv : Env :=
  { cfg := goodCfg, binaryExists := true, spawnErr := none,
    polls := fun _ => none, maxPolls := 3 }

/-- Concrete environment: the backend executable is missing. -/
def missingEnv : Env :=
  { cfg := goodCfg, binaryExists := false, spawnErr := none,
    polls := fun _ => none, maxPolls := 3 }

/-- Concrete environment: every poll gets an HTTP 503 response. -/
def badStatusEnv : Env :=
  { cfg := goodCfg, binaryExists := true, spawnErr := none,
    polls := fun _ => some 503, maxPolls := 3 }

/-- The supervisor state before anything has started. -/
def freshState : SupState := { ready := false, child := none }

/-- A concrete inbound request mixing denylisted and ordinary headers. -/
def sampleReq : Req :=
  { method := "GET", pathAndQuery := some "/api?x=1",
    headers := [("Connection", "close"), ("Accept", "text/html"),
                ("HOST", "example.com"), ("X-Custom", "v")],
    body := ["chunk"] }

/-- A concrete backend response with one denylisted header. -/
def sampleResp : BackendResp :=
  { status := 200,
    headers := [("Content-Type", "text/html"), ("Transfer-Encoding", "chunked")],
    frames := ["hello"] }

end Proxy

namespace ProxyConc

/-- Intermediate states of a single caller's complete run, used as concrete
fixtures for the reachability witness. -/
def c1 : CState 1 :=
  { ready := false, lock := none, spawns := 0, pcs := fun _ => PC.waiting }

def c2 : CState 1 :=
  { ready := false, lock := some 0, spawns := 0, pcs := fun _ => PC.recheck }

def c3 : CState 1 :=
  { ready := false, lock := some 0, spawns := 0, pcs := fun _ => PC.spawning }

def c4 : CState 1 :=
  { ready := false, lock := some 0, spawns := 1, pcs := fun _ => PC.polling }

def c5 : CState 1 :=
  { ready := true, lock := some 0, spawns := 1, pcs := fun _ => PC.releasing }

/-- The state after one caller has completed `ensure_ready` successfully. -/
def cFinal : CState 1 :=
  { ready := true, lock := none, spawns := 1, pcs := fun _ => PC.done }

theorem inv_init (n : Nat) : Inv (init n) := by
  constructor <;> simp [init, PC.inCrit]

theorem inv_step {n : Nat} {s s' : CState n} (hs : Inv s) (h : Step s s') :
    Inv s' := by
  obtain ⟨hcrit, hsnr, hle, htr, hps, hrr, hdr, hrs⟩ := hs
  cases h with
  | fastTrue i hi hr =>
      refine ⟨?_, ?_, ?_, ?_, ?_, ?_, ?_, ?_⟩ <;> dsimp only
      · intro j hj
        rcases eq_or_ne j i with rfl | hne
        · rw [Function.update_same] at hj; simp [PC.inCrit] at hj
        · rw [Function.update_noteq hne] at hj; exact hcrit j hj
      · intro j hj
        rcases eq_or_ne j i with rfl | hne
        · rw [Function.update_same] at hj; cases hj
        · rw [Function.update_noteq hne] at hj; exact hsnr j hj
      · exact hle
      · intro _
        exact Or.inl hr
      · intro j hj
        rcases eq_or_ne j i with rfl | hne
        · rw [Function.update_same] at hj; cases hj
        · rw [Function.update_noteq hne] at hj; exact hps j hj
      · intro j _
        exact hr
      · intro j _
        exact hr
      · exact hrs
  | fastFalse i hi hr =>
      refine ⟨?_, ?_, ?_, ?_, ?_, ?_, ?_, ?_⟩ <;> dsimp only
      · intro j hj
        rcases eq_or_ne j i with rfl | hne
        · rw [Function.update_same] at hj; simp [PC.inCrit] at hj
        · rw [Function.update_noteq hne] at hj; exact hcrit j hj
      · intro j _
        exact hr
      · exact hle
      · intro h1
        rcases htr h1 with hrd | ⟨j, hj⟩
        · exact Or.inl hrd
        · have hne : j ≠ i := by intro he; rw [he, hi] at hj; cases hj
          exact Or.inr ⟨j, by rwa [Function.update_noteq hne]⟩
      · intro j hj
        rcases eq_or_ne j i with rfl | hne
        · rw [Function.update_same] at hj; cases hj
        · rw [Function.update_noteq hne] at hj; exact hps j hj
      · intro j hj
        rcases eq_or_ne j i with rfl | hne
        · rw [Function.update_same] at hj; cases hj
        · rw [Function.update_noteq hne] at hj; exact hrr j hj
      · intro j hj
        rcases eq_or_ne j i with rfl | hne
        · rw [Function.update_same] at hj; cases hj
        · rw [Function.update_noteq hne] at hj; exact hdr j hj
      · exact hrs
  | acquire i hi hl =>
      refine ⟨?_, ?_, ?_, ?_, ?_, ?_, ?_, ?_⟩ <;> dsimp only
      · intro j hj
        rcases eq_or_ne j i with rfl | hne
        · rfl
        · rw [Function.update_noteq hne] at hj
          exact Option.noConfusion (hl.symm.trans (hcrit j hj))
      · intro j hj
        rcases eq_or_ne j i with rfl | hne
        · rw [Function.update_same] at hj; cases hj
        · rw [Function.update_noteq hne] at hj; exact hsnr j hj
      · exact hle
      · intro h1
        rcases htr h1 with hrd | ⟨j, hj⟩
        · exact Or.inl hrd
        · have hne : j ≠ i := by intro he; rw [he, hi] at hj; cases hj
          exact Or.inr ⟨j, by rwa [Function.update_noteq hne]⟩
      · intro j hj
        rcases eq_or_ne j i with rfl | hne
        · rw [Function.update_same] at hj; cases hj
        · rw [Function.update_noteq hne] at hj; exact hps j hj
      · intro j hj
        rcases eq_or_ne j i with rfl | hne
        · rw [Function.update_same] at hj; cases hj
        · rw [Function.update_noteq hne] at hj; exact hrr j hj
      · intro j hj
        rcases eq_or_ne j i with rfl | hne
        · rw [Function.update_same] at hj; cases hj
        · rw [Function.update_noteq hne] at hj; exact hdr j hj
      · exact hrs
  | recheckTrue i hi hr =>
      have hlock : s.lock = some i := hcrit i (by rw [hi]; trivial)
      refine ⟨?_, ?_, ?_, ?_, ?_, ?_, ?_, ?_⟩ <;> dsimp only
      · intro j hj
        rcases eq_or_ne j i with rfl | hne
        · rw [Function.update_same] at hj; simp [PC.inCrit] at hj
        · rw [Function.update_noteq hne] at hj
          exact absurd (Option.some.inj ((hcrit j hj).symm.trans hlock)) hne
      · intro j hj
        rcases eq_or_ne j i with rfl | hne
        · rw [Function.update_same] at hj; cases hj
        · rw [Function.update_noteq hne] at hj; exact hsnr j hj
      · exact hle
      · intro _
        exact Or.inl hr
      · intro j hj
        rcases eq_or_ne j i with rfl | hne
        · rw [Function.update_same] at hj; cases hj
        · rw [Function.update_noteq hne] at hj; exact hps j hj
      · intro j _
        exact hr
      · intro j _
        exact hr
      · exact hrs
  | recheckFalse i hi hr =>
      have hlock : s.lock = some i := hcrit i (by rw [hi]; trivial)
      refine ⟨?_, ?_, ?_, ?_, ?_, ?_, ?_, ?_⟩ <;> dsimp only
      · intro j hj
        rcases eq_or_ne j i with rfl | hne
        · exact hlock
        · rw [Function.update_noteq hne] at hj; exact hcrit j hj
      · intro j _
        exact hr
      · exact hle
      · intro h1
        rcases htr h1 with hrd | ⟨j, hj⟩
        · exact Or.inl hrd
        · have hne : j ≠ i := by intro he; rw [he, hi] at hj; cases hj
          exact Or.inr ⟨j, by rwa [Function.update_noteq hne]⟩
      · intro j hj
        rcases eq_or_ne j i with rfl | hne
        · rw [Function.update_same] at hj; cases hj
        · rw [Function.update_noteq hne] at hj; exact hps j hj
      · intro j hj
        rcases eq_or_ne j i with rfl | hne
        · rw [Function.update_same] at hj; cases hj
        · rw [Function.update_noteq hne] at hj; exact hrr j hj
      · intro j hj
        rcases eq_or_ne j i with rfl | hne
        · rw [Function.update_same] at hj; cases hj
        · rw [Function.update_noteq hne] at hj; exact hdr j hj
      · exact hrs
  | spawn i hi =>
      have hlock : s.lock = some i := hcrit i (by rw [hi]; trivial)
      have hrdf : s.ready = false := hsnr i hi
      have hzero : s.spawns = 0 := by
        by_contra hnz
        have h1 : s.spawns = 1 := by omega
        rcases htr h1 with hrd | ⟨j, hj⟩
        · rw [hrdf] at hrd; cases hrd
        · have hlj : s.lock = some j := hcrit j (by rw [hj]; trivial)
          have hij : j = i := Option.some.inj (hlj.symm.trans hlock)
          rw [hij, hi] at hj; cases hj
      refine ⟨?_, ?_, ?_, ?_, ?_, ?_, ?_, ?_⟩ <;> dsimp only
      · intro j hj
        rcases eq_or_ne j i with rfl | hne
        · exact hlock
        · rw [Function.update_noteq hne] at hj; exact hcrit j hj
      · intro j hj
        rcases eq_or_ne j i with rfl | hne
        · rw [Function.update_same] at hj; cases hj
        · rw [Function.update_noteq hne] at hj; exact hsnr j hj
      · omega
      · intro _
        exact Or.inr ⟨i, by rw [Function.update_same]⟩
      · intro j _
        omega
      · intro j hj
        rcases eq_or_ne j i with rfl | hne
        · rw [Function.update_same] at hj; cases hj
        · rw [Function.update_noteq hne] at hj; exact hrr j hj
      · intro j hj
        rcases eq_or_ne j i with rfl | hne
        · rw [Function.update_same] at hj; cases hj
        · rw [Function.update_noteq hne] at hj; exact hdr j hj
      · intro _
        omega
  | healthOk i hi =>
      have hlock : s.lock = some i := hcrit i (by rw [hi]; trivial)
      have hsp : 1 ≤ s.spawns := hps i hi
      refine ⟨?_, ?_, ?_, ?_, ?_, ?_, ?_, ?_⟩ <;> dsimp only
      · intro j hj
        rcases eq_or_ne j i with rfl | hne
        · exact hlock
        · rw [Function.update_noteq hne] at hj; exact hcrit j hj
      · intro j hj
        rcases eq_or_ne j i with rfl | hne
        · rw [Function.update_same] at hj; cases hj
        · rw [Function.update_noteq hne] at hj
          have hlj : s.lock = some j := hcrit j (by rw [hj]; trivial)
          exact absurd (Option.some.inj (hlj.symm.trans hlock)) hne
      · exact hle
      · intro _
        exact Or.inl rfl
      · intro j hj
        rcases eq_or_ne j i with rfl | hne
        · exact hsp
        · rw [Function.update_noteq hne] at hj; exact hps j hj
      · intro j _
        rfl
      · intro j _
        rfl
      · intro _
        exact hsp
  | release i hi =>
      have hlock : s.lock = some i := hcrit i (by rw [hi]; trivial)
      have hrdy : s.ready = true := hrr i hi
      refine ⟨?_, ?_, ?_, ?_, ?_, ?_, ?_, ?_⟩ <;> dsimp only
      · intro j hj
        rcases eq_or_ne j i with rfl | hne
        · rw [Function.update_same] at hj; simp [PC.inCrit] at hj
        · rw [Function.update_noteq hne] at hj
          exact absurd (Option.some.inj ((hcrit j hj).symm.trans hlock)) hne
      · intro j hj
        rcases eq_or_ne j i with rfl | hne
        · rw [Function.update_same] at hj; cases hj
        · rw [Function.update_noteq hne] at hj; exact hsnr j hj
      · exact hle
      · intro _
        exact Or.inl hrdy
      · intro j hj
        rcases eq_or_ne j i with rfl | hne
        · rw [Function.update_same] at hj; cases hj
        · rw [Function.update_noteq hne] at hj; exact hps j hj
      · intro j _
        exact hrdy
      · intro j _
        exact hrdy
      · exact hrs

theorem inv_reachable {n : Nat} {s : CState n} (h : Reachable n s) : Inv s := by
  induction h with
  | refl => exact inv_init n
  | tail _ hstep ih => exact inv_step ih hstep

end ProxyConc

namespace Proxy

theorem hop_eq_contains (name : String) :
    is_hop_by_hop_header name = hopByHopNames.contains (lowerName name) := by
  unfold is_hop_by_hop_header hopByHopNames
  split <;> simp_all [List.contains]

theorem healthLoop_eq_none (env : Env) :
    ∀ i fuel, (∀ j, i ≤ j → j < i + fuel → pollIsHealthy (env.polls j) = false) →
      healthLoop env i fuel = none := by
  intro i fuel
  induction fuel generalizing i with
  | zero => intro _; rfl
  | succ fuel ih =>
      intro h
      have h0 : pollIsHealthy (env.polls i) = false := h i (le_refl i) (by omega)
      simp only [healthLoop, h0, if_false]
      exact ih (i + 1) (fun j hj1 hj2 => h j (by omega) (by omega))

theorem ensureReady_ok (env : Env) (s s' : SupState) (t : Trace)
    (h : ensureReady env s = (Except.ok (), s', t)) :
    (s.ready = true ∧ s' = s) ∨ (s'.ready = true ∧ s'.child = some ()) := by
  unfold ensureReady at h
  by_cases hs : s.ready = true
  · rw [if_pos hs] at h
    simp only [Prod.mk.injEq] at h
    exact Or.inl ⟨hs, h.2.1.symm⟩
  · simp only [if_neg hs] at h
    split at h
    · simp at h
    · split at h
      · simp at h
      · split at h
        · simp only [Prod.mk.injEq] at h
          refine Or.inr ?_
          rw [← h.2.1]
          exact ⟨rfl, rfl⟩
        · simp at h

theorem ensureReady_error_state (env : Env) (s : SupState) (e : String)
    (s' : SupState) (t : Trace)
    (h : ensureReady env s = (Except.error e, s', t)) :
    s'.ready = false ∧ s'.child = none := by
  unfold ensureReady at h
  by_cases hs : s.ready = true
  · rw [if_pos hs] at h
    simp at h
  · have hsf : s.ready = false := by revert hs; cases s.ready <;> simp
    simp only [if_neg hs] at h
    split at h
    · simp only [Prod.mk.injEq] at h
      obtain ⟨-, h2, -⟩ := h
      rw [← h2]
      exact ⟨hsf, rfl⟩
    · split at h
      · simp only [Prod.mk.injEq] at h
        obtain ⟨-, h2, -⟩ := h
        rw [← h2]
        exact ⟨hsf, rfl⟩
      · split at h
        · simp at h
        · simp only [Prod.mk.injEq] at h
          obtain ⟨-, h2, -⟩ := h
          rw [← h2]
          exact ⟨hsf, rfl⟩

/-- C3: when no health poll returns a successful status before the deadline,
`ensure_ready` returns the healthcheck-timeout error, the spawned process has
been killed and the handle slot is empty, and the readiness flag is false. -/
theorem ensure_ready_healthcheck_timeout (env : Env) (s : SupState)
    (hready : s.ready = false)
    (hbin : env.binaryExists = true)
    (hspawn : env.spawnErr = none)
    (hpolls : ∀ i, i < env.maxPolls → pollIsHealthy (env.polls i) = false) :
    ensureReady env s =
      (Except.error "health check timed out",
       { ready := false, child := none },
       { locks := 1, spawns := 1, polls := env.maxPolls,
         kills := killCount s + 1 }) := by
  have hloop : healthLoop env 0 env.maxPolls = none :=
    healthLoop_eq_none env 0 env.maxPolls (fun j _ hj2 => hpolls j (by omega))
  unfold ensureReady
  simp [hready, hbin, hspawn, hloop, killChild, killCount]

/-- C3 witness: with all polls failing and a 3-iteration deadline, the call
fails with the timeout error, an empty slot, one spawn and one kill. -/
theorem ensure_ready_healthcheck_timeout_witness :
    ensureReady timeoutEnv freshState =
      (Except.error "health check timed out",
       { ready := false, child := none },
       { locks := 1, spawns := 1, polls := 3, kills := 1 }) := by
  have h := ensure_ready_healthcheck_timeout timeoutEnv freshState rfl rfl rfl
    (fun i _ => rfl)
  exact h

/-- C4: when the backend executable is absent at `./<DistDir>/main`,
`ensure_ready` fails with the backend-missing error and spawns nothing. -/
theorem ensure_ready_backend_missing (env : Env) (s : SupState)
    (hready : s.ready = false) (hbin : env.binaryExists = false) :
    ensureReady env s =
      (Except.error ("go binary not found at " ++ goPath env.cfg),
       { ready := false, child := none },
       { locks := 1, spawns := 0, polls := 0, kills := killCount s }) := by
  unfold ensureReady
  simp [hready, hbin, killChild, killCount, Trace.zero]

/-- C4 witness: with the binary missing, the error names the configured path
and the trace shows zero spawns. -/
theorem ensure_ready_backend_missing_witness :
    ensureReady missingEnv freshState =
      (Except.error "go binary not found at ./backend/main",
       { ready := false, child := none },
       { locks := 1, spawns := 0, polls := 0, kills := 0 }) := by
  have h := ensure_ready_backend_missing missingEnv freshState rfl rfl
  exact h

/-- C5: a successful `ensure_ready` leaves the readiness flag true, and a
subsequent call (under any environment) succeeds on the fast path with zero
lock acquisitions, spawns, polls and kills. -/
theorem ensure_ready_success_then_fast_path (env env2 : Env) (s s' : SupState)
    (t : Trace) (h : ensureReady env s = (Except.ok (), s', t)) :
    s'.ready = true ∧ ensureReady env2 s' = (Except.ok (), s', Trace.zero) := by
  have hr : s'.ready = true := by
    rcases ensureReady_ok env s s' t h with ⟨h1, rfl⟩ | ⟨h1, -⟩
    · exact h1
    · exact h1
  refine ⟨hr, ?_⟩
  unfold ensureReady
  rw [if_pos hr]

/-- C5 witness: after a successful startup the flag is true and a second call
— even under an environment whose polls would all fail — is a no-op. -/
theorem ensure_ready_success_then_fast_path_witness :
    (⟨true, some ()⟩ : SupState).ready = true ∧
    ensureReady timeoutEnv ⟨true, some ()⟩ =
      (Except.ok (), ⟨true, some ()⟩, Trace.zero) :=
  ensure_ready_success_then_fast_path goodEnv timeoutEnv freshState
    ⟨true, some ()⟩ ⟨1, 1, 1, 0⟩ rfl

/-- C9: whenever `ensure_ready` returns an error — missing executable, spawn
failure, or health-check timeout — the readiness flag is false and the handle
slot is empty at the moment of return. -/
theorem ensure_ready_error_leaves_clean_state (env : Env) (s : SupState)
    (e : String) (s' : SupState) (t : Trace)
    (h : ensureReady env s = (Except.error e, s', t)) :
    s'.ready = false ∧ s'.child = none :=
  ensureReady_error_state env s e s' t h

/-- C9 witness: the state returned by a timed-out startup attempt has the
flag false and the slot empty. -/
theorem ensure_ready_error_leaves_clean_state_witness :
    (ensureReady timeoutEnv freshState).2.1.ready = false ∧
    (ensureReady timeoutEnv freshState).2.1.child = none :=
  ensure_ready_error_leaves_clean_state timeoutEnv freshState
    "health check timed out" ⟨false, none⟩ ⟨1, 1, 3, 1⟩ rfl

/-- C10: a health poll whose response arrives with a non-2xx status is scored
exactly like a network error — not yet healthy — and the loop proceeds to the
next poll after the fixed 25 ms delay instead of failing the attempt. -/
theorem health_poll_non_success_treated_as_unhealthy (c : Nat)
    (hc : statusIsSuccess c = false) (env : Env) (i fuel : Nat)
    (hp : env.polls i = some c) :
    pollIsHealthy (some c) = pollIsHealthy none ∧
    healthLoop env i (fuel + 1) = healthLoop env (i + 1) fuel ∧
    POLL_MS = 25 := by
  refine ⟨?_, ?_, rfl⟩
  · simp [pollIsHealthy, hc]
  · simp [healthLoop, pollIsHealthy, hp, hc]

/-- C10 witness: a 503 poll response is treated like a network error and the
loop continues with the next poll. -/
theorem health_poll_non_success_treated_as_unhealthy_witness :
    pollIsHealthy (some 503) = pollIsHealthy none ∧
    healthLoop badStatusEnv 0 1 = healthLoop badStatusEnv 1 0 ∧
    POLL_MS = 25 :=
  health_poll_non_success_treated_as_unhealthy 503 rfl badStatusEnv 0 0 rfl

end Proxy

namespace Proxy

/-- C2: after a successful `ensure_ready`, the outbound request carries
exactly the inbound headers whose lowercased names are outside the fixed
hop-by-hop denylist, with original values, and the same filter is applied to
the backend's response headers before they are relayed. -/
theorem handler_header_sanitization (env : Env) (s : SupState) (req : Req)
    (backend : Except String BackendResp) (s1 : SupState) (t1 : Trace)
    (hok : ensureReady env s = (Except.ok (), s1, t1)) :
    (handler env s req backend).outbound =
      some { method := req.method, uri := targetUri req.pathAndQuery,
             headers := req.headers.filter
               (fun h => !(hopByHopNames.contains (lowerName h.1))),
             body := req.body } ∧
    ∀ res : BackendResp, backend = Except.ok res →
      (handler env s req backend).outcome =
        HandlerOutcome.response res.status
          (res.headers.filter (fun h => !(hopByHopNames.contains (lowerName h.1))))
          (RespBody.stream res.frames) := by
  have hfil : ∀ hs : List (String × String),
      hs.filter (fun h => !is_hop_by_hop_header h.1) =
      hs.filter (fun h => !(hopByHopNames.contains (lowerName h.1))) := by
    intro hs
    apply List.filter_congr
    intro x _
    rw [hop_eq_contains]
  constructor
  · unfold handler
    rw [hok]
    cases backend <;> simp [hfil]
  · intro res hres
    subst hres
    unfold handler
    rw [hok]
    simp [hfil]

/-- C2 witness: on a concrete request, `Connection` and `HOST` are stripped
from the outbound headers and `Transfer-Encoding` from the response headers,
while ordinary headers survive with their values. -/
theorem handler_header_sanitization_witness :
    (handler goodEnv freshState sampleReq (Except.ok sampleResp)).outbound =
      some { method := "GET", uri := "http://127.0.0.1:8080/api?x=1",
             headers := [("Accept", "text/html"), ("X-Custom", "v")],
             body := ["chunk"] } ∧
    (handler goodEnv freshState sampleReq (Except.ok sampleResp)).outcome =
      HandlerOutcome.response 200 [("Content-Type", "text/html")]
        (RespBody.stream ["hello"]) := by
  have h := handler_header_sanitization goodEnv freshState sampleReq
    (Except.ok sampleResp) ⟨true, some ()⟩ ⟨1, 1, 1, 0⟩ rfl
  refine ⟨?_, ?_⟩
  · rw [h.1]
    rfl
  · rw [h.2 sampleResp rfl]
    rfl

/-- C7: when the outbound call to the backend fails, the handler stores
`false` into the readiness flag and ends the invocation with a `panic!`
instead of returning a normal response. -/
theorem handler_marks_unready_then_panics (env : Env) (s : SupState)
    (req : Req) (e : String) (s1 : SupState) (t1 : Trace)
    (hok : ensureReady env s = (Except.ok (), s1, t1)) :
    (handler env s req (Except.error e)).outcome =
      HandlerOutcome.panicked ("backend connection failed: " ++ e) ∧
    (handler env s req (Except.error e)).finalState.ready = false := by
  unfold handler
  rw [hok]
  exact ⟨rfl, rfl⟩

/-- C7 witness: a concrete forwarding failure panics with the connection
message and leaves the flag false. -/
theorem handler_marks_unready_then_panics_witness :
    (handler goodEnv freshState sampleReq (Except.error "refused")).outcome =
      HandlerOutcome.panicked "backend connection failed: refused" ∧
    (handler goodEnv freshState sampleReq (Except.error "refused")).finalState.ready
      = false :=
  handler_marks_unready_then_panics goodEnv freshState sampleReq "refused"
    ⟨true, some ()⟩ ⟨1, 1, 1, 0⟩ rfl

/-- C8: when `ensure_ready` fails, the handler answers the caller with status
503 and the error description as the body; the final state and trace are
exactly those `ensure_ready` left (no extra kill), with no `panic!`. -/
theorem handler_responds_503_on_ensure_ready_error (env : Env) (s : SupState)
    (req : Req) (backend : Except String BackendResp) (e : String)
    (s1 : SupState) (t1 : Trace)
    (herr : ensureReady env s = (Except.error e, s1, t1)) :
    handler env s req backend =
      { outcome := HandlerOutcome.response 503 [] (RespBody.text e),
        outbound := none, finalState := s1, trace := t1 } := by
  unfold handler
  rw [herr]

/-- C8 witness: with the backend executable missing, the handler returns a
503 whose body is the path-referencing error string. -/
theorem handler_responds_503_on_ensure_ready_error_witness :
    handler missingEnv freshState sampleReq (Except.ok sampleResp) =
      { outcome := HandlerOutcome.response 503 []
          (RespBody.text "go binary not found at ./backend/main"),
        outbound := none, finalState := ⟨false, none⟩,
        trace := ⟨1, 0, 0, 0⟩ } :=
  handler_responds_503_on_ensure_ready_error missingEnv freshState sampleReq
    (Except.ok sampleResp) "go binary not found at ./backend/main"
    ⟨false, none⟩ ⟨1, 0, 0, 0⟩ rfl

/-- C6 counterexample: a state with the readiness flag true and an occupied
handle slot is reachable by a successful `ensure_ready`, and applying
`shutdown` (which is `kill_child`) to it empties the slot while leaving the
flag true — so the claimed invariant "the flag is true only while a handle
exists in the slot" is not preserved by every operation. -/
theorem shutdown_breaks_ready_invariant :
    (ensureReady goodEnv freshState).1 = Except.ok () ∧
    (ensureReady goodEnv freshState).2.1 = ⟨true, some ()⟩ ∧
    (shutdown ⟨true, some ()⟩).ready = true ∧
    (shutdown ⟨true, some ()⟩).child = none :=
  ⟨rfl, rfl, rfl, rfl⟩

/-- C6 amended: `ensure_ready` (every outcome) and the handler (every path,
including the forwarding-failure path, whose flag-lowering keeps the
invariant vacuously) preserve "flag true → slot occupied"; `kill_child`
always empties the slot and never changes the flag, so it preserves the
invariant only from states whose flag is false — teardown from a ready state
violates it (the program exits immediately afterwards). -/
theorem ready_invariant_preservation (env : Env) (s : SupState)
    (hinv : s.ready = true → s.child.isSome = true) :
    (∀ r s' t, ensureReady env s = (r, s', t) →
      (s'.ready = true → s'.child.isSome = true)) ∧
    (∀ req backend,
      (handler env s req backend).finalState.ready = true →
      (handler env s req backend).finalState.child.isSome = true) ∧
    ((killChild s).child = none ∧ (killChild s).ready = s.ready) := by
  have hER : ∀ r s' t, ensureReady env s = (r, s', t) →
      (s'.ready = true → s'.child.isSome = true) := by
    intro r s' t h
    cases r with
    | ok u =>
        obtain ⟨⟩ := u
        rcases ensureReady_ok env s s' t h with ⟨h1, rfl⟩ | ⟨h1, h2⟩
        · exact hinv
        · intro _
          rw [h2]
          rfl
    | error e =>
        have hclean := ensureReady_error_state env s e s' t h
        intro hr
        rw [hclean.1] at hr
        cases hr
  refine ⟨hER, ?_, rfl, rfl⟩
  intro req backend
  rcases hE : ensureReady env s with ⟨r, s1, t1⟩
  unfold handler
  rw [hE]
  cases r with
  | error e =>
      dsimp only
      exact hER (Except.error e) s1 t1 hE
  | ok u =>
      obtain ⟨⟩ := u
      cases backend with
      | ok res =>
          dsimp only
          exact hER (Except.ok ()) s1 t1 hE
      | error e =>
          dsimp only
          intro hr
          simp at hr

/-- C6 amended witness: from the fresh state, a successful `ensure_ready`
and a forwarded request preserve the invariant, and `kill_child` empties the
slot without touching the flag. -/
theorem ready_invariant_preservation_witness :
    ((⟨true, some ()⟩ : SupState).ready = true →
      (⟨true, some ()⟩ : SupState).child.isSome = true) ∧
    ((handler goodEnv freshState sampleReq (Except.ok sampleResp)).finalState.ready = true →
      (handler goodEnv freshState sampleReq (Except.ok sampleResp)).finalState.child.isSome = true) ∧
    (killChild freshState).child = none := by
  have h := ready_invariant_preservation goodEnv freshState (by decide)
  exact ⟨h.1 (Except.ok ()) ⟨true, some ()⟩ ⟨1, 1, 1, 0⟩ rfl,
         h.2.1 sampleReq (Except.ok sampleResp), h.2.2.1⟩

end Proxy

namespace ProxyConc

/-- C1: in every state reachable by any interleaving of `N` concurrent
`ensure_ready` callers starting from "readiness false" (health checks
succeeding), at most one spawn has happened and at most one caller is inside
the lock-guarded spawn+health-check region; and when all callers have
returned, the backend was spawned exactly once. -/
theorem ensure_ready_spawned_exactly_once {n : Nat} (s : CState n)
    (h : Reachable n s) :
    s.spawns ≤ 1 ∧
    (∀ i j : Fin n, (s.pcs i).inCrit → (s.pcs j).inCrit → i = j) ∧
    (0 < n → (∀ i, s.pcs i = PC.done) → s.spawns = 1) := by
  have hinv := inv_reachable h
  refine ⟨hinv.spawns_le, ?_, ?_⟩
  · intro i j hi hj
    exact Option.some.inj ((hinv.crit_lock i hi).symm.trans (hinv.crit_lock j hj))
  · intro hn hall
    have hr : s.ready = true := hinv.done_ready ⟨0, hn⟩ (hall ⟨0, hn⟩)
    have h1 := hinv.ready_spawned hr
    have h2 := hinv.spawns_le
    omega

/-- Extensionality for protocol states. -/
theorem cstate_ext {n : Nat} {a b : CState n} (h1 : a.ready = b.ready)
    (h2 : a.lock = b.lock) (h3 : a.spawns = b.spawns)
    (h4 : ∀ i, a.pcs i = b.pcs i) : a = b := by
  obtain ⟨ra, la, sa, pa⟩ := a
  obtain ⟨rb, lb, sb, pb⟩ := b
  dsimp only at h1 h2 h3 h4
  subst h1
  subst h2
  subst h3
  have hp : pa = pb := funext h4
  rw [hp]

/-- C1 witness: the state in which a single caller has completed the whole
slow path is reachable, and there the spawn count is exactly one. -/
theorem ensure_ready_spawned_exactly_once_witness :
    Reachable 1 cFinal ∧ cFinal.spawns = 1 := by
  have e1 : ({ init 1 with
      pcs := Function.update (init 1).pcs 0 PC.waiting } : CState 1) = c1 :=
    cstate_ext rfl rfl rfl (fun j => by rw [Fin.eq_zero j]; rfl)
  have e2 : ({ c1 with lock := some 0, pcs := Function.update c1.pcs 0 PC.recheck } : CState 1) = c2 :=
    cstate_ext rfl rfl rfl (fun j => by rw [Fin.eq_zero j]; rfl)
  have e3 : ({ c2 with
      pcs := Function.update c2.pcs 0 PC.spawning } : CState 1) = c3 :=
    cstate_ext rfl rfl rfl (fun j => by rw [Fin.eq_zero j]; rfl)
  have e4 : ({ c3 with spawns := c3.spawns + 1, pcs := Function.update c3.pcs 0 PC.polling } : CState 1) = c4 :=
    cstate_ext rfl rfl rfl (fun j => by rw [Fin.eq_zero j]; rfl)
  have e5 : ({ c4 with ready := true, pcs := Function.update c4.pcs 0 PC.releasing } : CState 1) = c5 :=
    cstate_ext rfl rfl rfl (fun j => by rw [Fin.eq_zero j]; rfl)
  have e6 : ({ c5 with lock := none, pcs := Function.update c5.pcs 0 PC.done } : CState 1) = cFinal :=
    cstate_ext rfl rfl rfl (fun j => by rw [Fin.eq_zero j]; rfl)
  have h1 : Step (init 1) c1 := e1 ▸ Step.fastFalse (init 1) 0 rfl rfl
  have h2 : Step c1 c2 := e2 ▸ Step.acquire c1 0 rfl rfl
  have h3 : Step c2 c3 := e3 ▸ Step.recheckFalse c2 0 rfl rfl
  have h4 : Step c3 c4 := e4 ▸ Step.spawn c3 0 rfl
  have h5 : Step c4 c5 := e5 ▸ Step.healthOk c4 0 rfl
  have h6 : Step c5 cFinal := e6 ▸ Step.release c5 0 rfl
  have hreach : Reachable 1 cFinal :=
    (((((Relation.ReflTransGen.refl.tail h1).tail h2).tail h3).tail
      h4).tail h5).tail h6
  exact ⟨hreach,
    (ensure_ready_spawned_exactly_once cFinal hreach).2.2 (by omega)
      (fun i => rfl)⟩

end ProxyConc
